/-
Verification of the diarization-to-eaf converter.

This file shallowly embeds the two core components of the repository —
the diarization processor (JSON validation and speaker classification,
src/diarization_to_eaf/diarization_processor.py) and the EAF generator
(time-order construction, tier/annotation emission and media-URL
resolution, src/diarization_to_eaf/eaf_generator.py) — and proves or
refutes the specification's claims about them.

Modelling conventions:
- JSON values are represented exactly (an inductive type); Python's
  `isinstance(x, (int, float))` also matches booleans, since `bool` is a
  subclass of `int` in Python, and numeric comparison treats `False`/`True`
  as `0`/`1`; both are reproduced faithfully.
- Numeric timestamps are rationals (exact arithmetic standing in for the
  source's binary floating point); Python's `int(x)` truncates toward zero.
- `raise` is modelled by `Except.error` (processor) and by `Option`
  (generator: a `KeyError` on `self.time_slot_map[...]` yields `none`).
- Filesystem state reached through `Path.exists` / `Path.absolute` is
  abstracted into an explicit `MediaContext` record, with directories
  given as normalized path-component lists.
-/
import Mathlib

namespace D2EAF

/-! ## JSON value model and the structural validator
    (src/diarization_to_eaf/diarization_processor.py, `_validate_json`
    and `load_and_validate_data`) -/

/-- A JSON value as Python's `json.load` produces it.  Numbers are kept
exact as rationals; booleans are a separate constructor because Python
distinguishes them from other numbers only by type, not by value. -/
inductive JsonValue where
  | null : JsonValue
  | bool (b : Bool) : JsonValue
  | num (q : ℚ) : JsonValue
  | str (s : String) : JsonValue
  | arr (xs : List JsonValue) : JsonValue
  | obj (kvs : List (String × JsonValue)) : JsonValue

/-- Lookup of a key in a Python dict (modelled as an association list with
distinct keys, first match wins). -/
def objLookup (k : String) : List (String × JsonValue) → Option JsonValue
  | [] => none
  | kv :: rest => if k = kv.1 then some kv.2 else objLookup k rest

/-- Python's `isinstance(x, str)`. -/
def isStr : JsonValue → Bool
  | .str _ => true
  | _ => false

/-- Python's `isinstance(x, (int, float))`.  Note that this matches
booleans as well, because `bool` is a subclass of `int`. -/
def isNumber : JsonValue → Bool
  | .num _ => true
  | .bool _ => true
  | _ => false

/-- The numeric value Python uses when comparing a value that passed the
`isinstance(x, (int, float))` check (`False` is `0`, `True` is `1`). -/
def numVal : JsonValue → ℚ
  | .num q => q
  | .bool b => if b then 1 else 0
  | _ => 0

/-- One iteration of the validation loop of
`DiarizationProcessor._validate_json`: the entry must be a dict providing
`speaker` (a string) and `start`/`end` (numbers per `isinstance`, hence
also booleans) with `start < end`. -/
def validSegment : JsonValue → Bool
  | .obj kvs =>
    match objLookup "speaker" kvs, objLookup "start" kvs, objLookup "end" kvs with
    | some sp, some st, some en =>
      isStr sp && isNumber st && isNumber en && decide (numVal st < numVal en)
    | _, _, _ => false
  | _ => false

/-- `DiarizationProcessor._validate_json`: top-level dict with keys
`jobId`, `status` and `output`; `output` a dict with key `diarization`
holding a list; every list entry passes `validSegment`. -/
def validate_json : JsonValue → Bool
  | .obj kvs =>
    match objLookup "jobId" kvs, objLookup "status" kvs, objLookup "output" kvs with
    | some _, some _, some out =>
      match out with
      | .obj okvs =>
        match objLookup "diarization" okvs with
        | some (.arr segs) => segs.all validSegment
        | some _ => false
        | none => false
      | _ => false
    | _, _, _ => false
  | _ => false

/-- Python truthiness: `not data` in `load_and_validate_data`. -/
def isFalsy : JsonValue → Bool
  | .null => true
  | .bool b => !b
  | .num q => decide (q = 0)
  | .str s => s.isEmpty
  | .arr xs => xs.isEmpty
  | .obj kvs => kvs.isEmpty

/-- The message of the `ValueError` raised by `load_and_validate_data`. -/
def invalidMsg : String := "Invalid JSON structure in the diarization data"

/-- `DiarizationProcessor.load_and_validate_data`, with the file already
parsed into `d`: raise `ValueError` when the document is falsy or fails
`_validate_json`, otherwise return `data["output"]["diarization"]`.
The inner fallback arms are unreachable once validation has passed. -/
def load_and_validate_data (d : JsonValue) : Except String (List JsonValue) :=
  if isFalsy d || !validate_json d then .error invalidMsg
  else
    match d with
    | .obj kvs =>
      match objLookup "output" kvs with
      | some (.obj okvs) =>
        match objLookup "diarization" okvs with
        | some (.arr segs) => .ok segs
        | _ => .error invalidMsg
      | _ => .error invalidMsg
    | _ => .error invalidMsg

/-! ## Validated segments and the classifier
    (src/diarization_to_eaf/diarization_processor.py,
    `_determine_speakers` and `process_diarization_data`) -/

/-- A validated speech segment, as the upstream collaborator hands it to
the core: a speaker label and exact start/end times in seconds.  The field
`end` of the source dict is spelled `end_` (`end` is reserved). -/
structure Segment where
  speaker : String
  start : ℚ
  end_ : ℚ
  deriving DecidableEq

/-- `DiarizationProcessor._determine_speakers`: the operator label is the
speaker of the first segment; raises when no data is loaded. -/
def determine_speakers : List Segment → Except String String
  | [] => .error "No diarization data available"
  | s :: _ => .ok s.speaker

/-- `DiarizationProcessor.process_diarization_data`: raise on empty data,
otherwise split the segments, in order, into those whose speaker equals
the operator label (the first segment's speaker) and all others.  The
append-to-one-of-two-lists loop of the source is exactly a stable
partition. -/
def process_diarization_data (segs : List Segment) :
    Except String (List Segment × List Segment) :=
  match segs with
  | [] => .error "No diarization data loaded. Call load_and_validate_data() first."
  | s :: _ => .ok (segs.partition (fun seg => seg.speaker == s.speaker))

/-! ## Claim C7 apparatus: the contract the validator actually enforces -/

/-- Claim-side contract for one entry, worded from the amended claim C7:
an object with a `speaker` key holding a string (possibly empty), and
`start`/`end` keys holding numbers (booleans included) with `start`
strictly less than `end`. -/
def entryShape (v : JsonValue) : Bool :=
  match v with
  | .obj kvs =>
    (match objLookup "speaker" kvs with
     | some (.str _) => true
     | _ => false) &&
    (match objLookup "start" kvs, objLookup "end" kvs with
     | some st, some en => isNumber st && isNumber en && decide (numVal st < numVal en)
     | _, _ => false)
  | _ => false

/-- Claim-side contract for the whole document, worded from the amended
claim C7: a top-level object carrying `jobId`, `status` and `output`,
whose `output` is an object carrying `diarization`, a list all of whose
entries satisfy `entryShape`. -/
def documentShape (d : JsonValue) : Bool :=
  match d with
  | .obj kvs =>
    (objLookup "jobId" kvs).isSome &&
    ((objLookup "status" kvs).isSome &&
     (match objLookup "output" kvs with
      | some (.obj okvs) =>
        (match objLookup "diarization" okvs with
         | some (.arr entries) => entries.all entryShape
         | _ => false)
      | _ => false))
  | _ => false

lemma validSegment_eq_entryShape (v : JsonValue) : validSegment v = entryShape v := by
  cases v with
  | obj kvs =>
    simp only [validSegment, entryShape]
    rcases hsp : objLookup "speaker" kvs with _ | sp
    · simp
    · rcases hst : objLookup "start" kvs with _ | st
      · simp
      · rcases hen : objLookup "end" kvs with _ | en
        · simp
        · cases sp <;> simp [isStr, Bool.and_assoc]
  | null => rfl
  | bool b => rfl
  | num q => rfl
  | str s => rfl
  | arr xs => rfl

lemma all_validSegment_eq (entries : List JsonValue) :
    entries.all validSegment = entries.all entryShape := by
  induction entries with
  | nil => rfl
  | cons e rest ih => simp only [List.all_cons, ih, validSegment_eq_entryShape e]

lemma validate_json_eq_documentShape (d : JsonValue) :
    validate_json d = documentShape d := by
  cases d with
  | obj kvs =>
    simp only [validate_json, documentShape]
    rcases hj : objLookup "jobId" kvs with _ | j <;>
      rcases hs : objLookup "status" kvs with _ | s <;>
        rcases ho : objLookup "output" kvs with _ | out <;>
          simp only [hj, hs, ho, Option.isSome_none, Option.isSome_some,
            Bool.false_and, Bool.true_and, Bool.and_false]
    cases out with
    | obj okvs =>
      rcases hd : objLookup "diarization" okvs with _ | di
      · simp [hd]
      · cases di <;> simp [hd, all_validSegment_eq]
    | null => rfl
    | bool b => rfl
    | num q => rfl
    | str s2 => rfl
    | arr xs => rfl
  | null => rfl
  | bool b => rfl
  | num q => rfl
  | str s => rfl
  | arr xs => rfl

lemma validate_json_not_falsy {d : JsonValue} (h : validate_json d = true) :
    isFalsy d = false := by
  cases d with
  | obj kvs =>
    cases kvs with
    | nil => simp [validate_json, objLookup] at h
    | cons kv rest => simp [isFalsy]
  | null => simp [validate_json] at h
  | bool b => simp [validate_json] at h
  | num q => simp [validate_json] at h
  | str s => simp [validate_json] at h
  | arr xs => simp [validate_json] at h

lemma load_ok_of_documentShape {d : JsonValue} (h : documentShape d = true) :
    ∃ segs, load_and_validate_data d = Except.ok segs := by
  have hv : validate_json d = true := by
    rw [validate_json_eq_documentShape]; exact h
  have hf : isFalsy d = false := validate_json_not_falsy hv
  cases d with
  | obj kvs =>
    simp only [documentShape, Bool.and_eq_true] at h
    rcases h with ⟨-, -, h3⟩
    rcases ho : objLookup "output" kvs with _ | out
    · rw [ho] at h3; exact absurd h3 (by simp)
    · rw [ho] at h3
      cases out with
      | obj okvs =>
        replace h3 : (match objLookup "diarization" okvs with
            | some (JsonValue.arr entries) => entries.all entryShape
            | _ => false) = true := h3
        rcases hd : objLookup "diarization" okvs with _ | di
        · rw [hd] at h3; exact absurd h3 (by simp)
        · rw [hd] at h3
          cases di with
          | arr entries =>
            exact ⟨entries, by simp [load_and_validate_data, hf, hv, ho, hd]⟩
          | null => exact absurd h3 (by simp)
          | bool b => exact absurd h3 (by simp)
          | num q => exact absurd h3 (by simp)
          | str s2 => exact absurd h3 (by simp)
          | obj o2 => exact absurd h3 (by simp)
      | null => exact absurd h3 (by simp)
      | bool b => exact absurd h3 (by simp)
      | num q => exact absurd h3 (by simp)
      | str s2 => exact absurd h3 (by simp)
      | arr xs => exact absurd h3 (by simp)
  | null => simp [documentShape] at h
  | bool b => simp [documentShape] at h
  | num q => simp [documentShape] at h
  | str s => simp [documentShape] at h
  | arr xs => simp [documentShape] at h

lemma documentShape_entries {kvs okvs : List (String × JsonValue)}
    {entries : List JsonValue}
    (h : documentShape (JsonValue.obj kvs) = true)
    (ho : objLookup "output" kvs = some (JsonValue.obj okvs))
    (hd : objLookup "diarization" okvs = some (JsonValue.arr entries)) :
    entries.all entryShape = true := by
  simp only [documentShape, Bool.and_eq_true] at h
  rcases h with ⟨-, -, h3⟩
  rw [ho] at h3
  replace h3 : (match objLookup "diarization" okvs with
      | some (JsonValue.arr entries) => entries.all entryShape
      | _ => false) = true := h3
  rw [hd] at h3
  exact h3

lemma documentShape_of_load_ok {d : JsonValue} {segs : List JsonValue}
    (h : load_and_validate_data d = Except.ok segs) : documentShape d = true := by
  rw [← validate_json_eq_documentShape]
  by_contra hv
  have hv2 : validate_json d = false := by
    cases hvb : validate_json d
    · rfl
    · exact absurd hvb hv
  unfold load_and_validate_data at h
  rw [hv2] at h
  simp at h

/-! ## Claims about the processor -/

/-- Claim C4: for every non-empty validated segment list, classification
sets the operator label to the first segment's speaker and stably
partitions the input: the operator list keeps exactly the segments whose
speaker equals that label and the caller list the rest, both preserving
the original order (sublists), their multiset union is the input, and if
all segments share one speaker the caller list is empty. -/
theorem C4_classification_partition (s : Segment) (rest : List Segment) :
    determine_speakers (s :: rest) = Except.ok s.speaker ∧
    process_diarization_data (s :: rest) =
      Except.ok ((s :: rest).filter (fun seg => seg.speaker == s.speaker),
                 (s :: rest).filter (fun seg => !(seg.speaker == s.speaker))) ∧
    ((s :: rest).filter (fun seg => seg.speaker == s.speaker)).Sublist (s :: rest) ∧
    ((s :: rest).filter (fun seg => !(seg.speaker == s.speaker))).Sublist (s :: rest) ∧
    ((s :: rest).filter (fun seg => seg.speaker == s.speaker) ++
      (s :: rest).filter (fun seg => !(seg.speaker == s.speaker))).Perm (s :: rest) ∧
    ((∀ seg ∈ s :: rest, seg.speaker = s.speaker) →
      (s :: rest).filter (fun seg => !(seg.speaker == s.speaker)) = []) := by
  refine ⟨rfl, ?_, List.filter_sublist _, List.filter_sublist _,
    List.filter_append_perm _ _, ?_⟩
  · show Except.ok ((s :: rest).partition fun seg => seg.speaker == s.speaker) =
      Except.ok ((s :: rest).filter (fun seg => seg.speaker == s.speaker),
                 (s :: rest).filter (fun seg => !(seg.speaker == s.speaker)))
    rw [List.partition_eq_filter_filter]
    rfl
  · intro hall
    rw [List.filter_eq_nil_iff]
    intro a ha
    simp [hall a ha]

/-- Witness for claim C4 at a concrete two-speaker input. -/
theorem C4_classification_witness :
    determine_speakers [Segment.mk "A" 0 1, Segment.mk "B" 1 2] =
      Except.ok (Segment.mk "A" 0 1).speaker ∧
    process_diarization_data [Segment.mk "A" 0 1, Segment.mk "B" 1 2] =
      Except.ok
        (([Segment.mk "A" 0 1, Segment.mk "B" 1 2].filter
            (fun seg => seg.speaker == (Segment.mk "A" 0 1).speaker)),
         ([Segment.mk "A" 0 1, Segment.mk "B" 1 2].filter
            (fun seg => !(seg.speaker == (Segment.mk "A" 0 1).speaker)))) ∧
    (([Segment.mk "A" 0 1, Segment.mk "B" 1 2].filter
        (fun seg => seg.speaker == (Segment.mk "A" 0 1).speaker)).Sublist
      [Segment.mk "A" 0 1, Segment.mk "B" 1 2]) ∧
    (([Segment.mk "A" 0 1, Segment.mk "B" 1 2].filter
        (fun seg => !(seg.speaker == (Segment.mk "A" 0 1).speaker))).Sublist
      [Segment.mk "A" 0 1, Segment.mk "B" 1 2]) ∧
    (([Segment.mk "A" 0 1, Segment.mk "B" 1 2].filter
        (fun seg => seg.speaker == (Segment.mk "A" 0 1).speaker) ++
      [Segment.mk "A" 0 1, Segment.mk "B" 1 2].filter
        (fun seg => !(seg.speaker == (Segment.mk "A" 0 1).speaker))).Perm
      [Segment.mk "A" 0 1, Segment.mk "B" 1 2]) ∧
    ((∀ seg ∈ [Segment.mk "A" 0 1, Segment.mk "B" 1 2],
        seg.speaker = (Segment.mk "A" 0 1).speaker) →
      [Segment.mk "A" 0 1, Segment.mk "B" 1 2].filter
        (fun seg => !(seg.speaker == (Segment.mk "A" 0 1).speaker)) = []) :=
  C4_classification_partition (Segment.mk "A" 0 1) [Segment.mk "B" 1 2]

/-- Claim C8: classifying the empty segment list fails with the
empty-input error and produces no partition. -/
theorem C8_empty_input_error :
    process_diarization_data [] =
      Except.error "No diarization data loaded. Call load_and_validate_data() first." :=
  rfl

/-- Entry with an empty `speaker` string, used against claim C7. -/
def emptySpeakerKvs : List (String × JsonValue) :=
  [("speaker", .str ""), ("start", .num 0), ("end", .num 1)]

/-- Document wrapping `emptySpeakerKvs`, used against claim C7. -/
def emptySpeakerDoc : JsonValue :=
  .obj [("jobId", .str "job"), ("status", .str "succeeded"),
        ("output", .obj [("diarization", .arr [.obj emptySpeakerKvs])])]

/-- Counterexample to claim C7 as stated: the claimed contract demands a
NON-EMPTY string speaker, but an entry whose speaker is the empty string
is accepted by validation, which returns the data instead of raising. -/
theorem C7_counterexample :
    load_and_validate_data emptySpeakerDoc =
      Except.ok [JsonValue.obj emptySpeakerKvs] ∧
    objLookup "speaker" emptySpeakerKvs = some (JsonValue.str "") :=
  ⟨rfl, rfl⟩

/-- Entry missing the `speaker` key, for the witness of amended claim C7. -/
def missingSpeakerEntryKvs : List (String × JsonValue) :=
  [("start", .num 0), ("end", .num 1)]

/-- Inner `output` object for the missing-speaker witness document. -/
def missingSpeakerOkvs : List (String × JsonValue) :=
  [("diarization", .arr [.obj missingSpeakerEntryKvs])]

/-- Top-level keys of the missing-speaker witness document. -/
def missingSpeakerKvs : List (String × JsonValue) :=
  [("jobId", .str "job"), ("status", .str "succeeded"),
   ("output", .obj missingSpeakerOkvs)]

/-- Amended claim C7: loading-and-validation succeeds exactly when the
document satisfies the structural contract that the code actually checks
(`documentShape`: top-level object with `jobId`/`status`/`output`,
`output.diarization` a list, each entry an object with a string speaker —
which may be empty — and numeric-or-boolean start/end with start < end);
otherwise it raises the `ValueError`.  In particular an entry missing the
`speaker` key makes loading fail, so classification never runs on it. -/
theorem C7_amended_validation_iff :
    (∀ d, (∃ segs, load_and_validate_data d = Except.ok segs) ↔ documentShape d = true)
    ∧ (∀ kvs okvs entries ekvs,
        objLookup "output" kvs = some (JsonValue.obj okvs) →
        objLookup "diarization" okvs = some (JsonValue.arr entries) →
        JsonValue.obj ekvs ∈ entries →
        objLookup "speaker" ekvs = none →
        load_and_validate_data (JsonValue.obj kvs) = Except.error invalidMsg) := by
  constructor
  · intro d
    constructor
    · rintro ⟨segs, h⟩
      exact documentShape_of_load_ok h
    · exact load_ok_of_documentShape
  · intro kvs okvs entries ekvs ho hd hmem hsp
    have hshape : documentShape (JsonValue.obj kvs) = false := by
      cases hdb : documentShape (JsonValue.obj kvs)
      · rfl
      · exfalso
        have hall := documentShape_entries hdb ho hd
        have hent := List.all_eq_true.mp hall _ hmem
        simp [entryShape, hsp] at hent
    have hv : validate_json (JsonValue.obj kvs) = false := by
      rw [validate_json_eq_documentShape]; exact hshape
    unfold load_and_validate_data
    rw [hv]
    simp

/-- Witness for amended claim C7: a well-shaped document (one whose only
oddity is an empty speaker string) loads successfully, and a document
whose single entry lacks the `speaker` key is rejected with the error. -/
theorem C7_witness :
    (∃ segs, load_and_validate_data emptySpeakerDoc = Except.ok segs) ∧
    load_and_validate_data (JsonValue.obj missingSpeakerKvs) =
      Except.error invalidMsg :=
  ⟨(C7_amended_validation_iff.1 emptySpeakerDoc).mpr rfl,
   C7_amended_validation_iff.2 missingSpeakerKvs missingSpeakerOkvs
     [JsonValue.obj missingSpeakerEntryKvs] missingSpeakerEntryKvs rfl rfl
     (List.mem_singleton.mpr rfl) rfl⟩

/-- Entry whose `start` and `end` are Python booleans, for claim C10. -/
def boolEntry : JsonValue :=
  .obj [("speaker", .str "A"), ("start", .bool false), ("end", .bool true)]

/-- Document wrapping `boolEntry`, for claim C10. -/
def boolDoc : JsonValue :=
  .obj [("jobId", .str "job"), ("status", .str "succeeded"),
        ("output", .obj [("diarization", .arr [boolEntry])])]

/-- Claim C10: the structural validator accepts boolean `start`/`end`
values (a Python `bool` passes the `isinstance(x, (int, float))` check and
`False < True` holds numerically), so the entry
`{"speaker": "A", "start": false, "end": true}` is accepted, and loading
returns it rather than raising. -/
theorem C10_bool_accepted :
    validate_json boolDoc = true ∧
    load_and_validate_data boolDoc = Except.ok [boolEntry] :=
  ⟨rfl, rfl⟩

/-! ## EAF generator embedding
    (src/diarization_to_eaf/eaf_generator.py) -/

/-- Python's `int(x)` applied to a (rational-modelled) float: truncation
toward zero, which is the floor for nonnegative values and the ceiling
for negative ones. -/
def pyint (q : ℚ) : ℤ := if q < 0 then ⌈q⌉ else ⌊q⌋

/-- One `TIME_SLOT` element: its `TIME_SLOT_ID` string and its numeric
`TIME_VALUE` (truncated milliseconds; the XML serializes it decimally). -/
structure TimeSlot where
  id : String
  value : ℤ
  deriving DecidableEq

/-- The `TIME_SLOT_ID` scheme of `_create_time_order`: the string `ts`
followed by the decimal numeral of `n`. -/
def tsId (n : ℕ) : String := "ts" ++ Nat.repr n

/-- The sort in `_create_time_order`:
`sorted(self.operator_segments + self.caller_segments, key=lambda x: x["start"])`.
Python's `sorted` is a stable sort by the start key; a stable sort's
output is uniquely determined by the input, so the (stable) insertion
sort computes the same list. -/
def sortedSegments (ops ca : List Segment) : List Segment :=
  List.insertionSort (fun a b => a.start ≤ b.start) (ops ++ ca)

/-- The `TIME_SLOT` elements emitted by the loop of `_create_time_order`:
two per segment (`ts{i*2+1}` holding the truncated-millisecond start,
`ts{i*2+2}` the end), with `i` the 0-based index in the sorted list.
There is no deduplication. -/
def buildTimeOrder : List Segment → ℕ → List TimeSlot
  | [], _ => []
  | seg :: rest, i =>
    ⟨tsId (2 * i + 1), pyint (seg.start * 1000)⟩ ::
      ⟨tsId (2 * i + 2), pyint (seg.end_ * 1000)⟩ :: buildTimeOrder rest (i + 1)

/-- `self.time_slot_map` after the loop of `_create_time_order`: a Python
dict keyed by the RAW seconds value, where insertion overwrites and the
start of segment `i` is written before its end.  Modelled as a chain of
function updates. -/
def buildSlotMap : List Segment → ℕ → (ℚ → Option String) → (ℚ → Option String)
  | [], _, m => m
  | seg :: rest, i, m =>
    buildSlotMap rest (i + 1)
      (fun q =>
        if q = seg.end_ then some (tsId (2 * i + 2))
        else if q = seg.start then some (tsId (2 * i + 1))
        else m q)

/-- `EAFGenerator._create_time_order`: the emitted TIME_ORDER slot list
together with the raw-seconds-to-slot-id lookup dict it leaves behind. -/
def create_time_order (ops ca : List Segment) :
    List TimeSlot × (ℚ → Option String) :=
  (buildTimeOrder (sortedSegments ops ca) 0,
   buildSlotMap (sortedSegments ops ca) 0 (fun _ => none))

/-- One `ALIGNABLE_ANNOTATION`: its id and its two time-slot references. -/
structure Ann where
  id : String
  ref1 : String
  ref2 : String
  deriving DecidableEq

/-- The `ANNOTATION_ID` scheme of `_create_tier`:
`f"{tier_id.lower()[0]}{i+1}"`. -/
def annId (tierId : String) (i : ℕ) : String :=
  (tierId.map Char.toLower).take 1 ++ Nat.repr (i + 1)

/-- The loop of `EAFGenerator._create_tier`: one annotation per segment in
order, referencing the slot map at the segment's raw start and end; a
timestamp missing from the map is a `KeyError`, modelled as `none`. -/
def create_tier_anns (tierId : String) (m : ℚ → Option String) :
    List Segment → ℕ → Option (List Ann)
  | [], _ => some []
  | seg :: rest, i =>
    match m seg.start, m seg.end_, create_tier_anns tierId m rest (i + 1) with
    | some r1, some r2, some anns => some (⟨annId tierId i, r1, r2⟩ :: anns)
    | _, _, _ => none

/-- The filesystem-facing inputs of `_get_relative_media_url` and
`_get_media_url`, abstracted: the directory holding the JSON document and
the optional media directory are normalized path-component lists,
`wavExists` is what `wav_path.exists()` returns at build time, and
`wavAbsolutePosix` is the string `wav_path.absolute().as_posix()` would
produce for the computed wav path. -/
structure MediaContext where
  jsonParent : List String
  jsonStem : String
  mediaDir : Option (List String)
  wavExists : Bool
  wavAbsolutePosix : String

/-- Length of the shared leading part of two component lists (the common
prefix that `os.path.relpath` cancels). -/
def commonPrefixLen : List String → List String → ℕ
  | x :: xs, y :: ys => if x = y then commonPrefixLen xs ys + 1 else 0
  | _, _ => 0

/-- `os.path.relpath(p, st)` on normalized component lists: strip the
common prefix, go up once per remaining component of `st`, then descend
the remaining components of `p`; the empty result is `.`. -/
def relpathComponents (p st : List String) : List String :=
  if List.replicate (st.length - commonPrefixLen p st) ".." ++
      p.drop (commonPrefixLen p st) = [] then ["."]
  else
    List.replicate (st.length - commonPrefixLen p st) ".." ++
      p.drop (commonPrefixLen p st)

/-- The companion wav file name `f"{json_path.stem}.wav"`. -/
def wavName (c : MediaContext) : String := c.jsonStem ++ ".wav"

/-- The `rel_path` computed by `_get_relative_media_url` before the `./`
prefixing: `os.path.relpath(media_dir / wav_name, json_path.parent)` when
a media directory is given, else just the wav file name, with separators
normalized to forward slashes. -/
def relPathString (c : MediaContext) : String :=
  match c.mediaDir with
  | some d => String.intercalate "/" (relpathComponents (d ++ [wavName c]) c.jsonParent)
  | none => wavName c

/-- `EAFGenerator._get_relative_media_url`: the relative path, prefixed
with `./` unless it already starts with a dot.  Note that it never
consults the filesystem. -/
def get_relative_media_url (c : MediaContext) : String :=
  if (relPathString c).startsWith "." then relPathString c
  else "./" ++ relPathString c

/-- `EAFGenerator._get_media_url`: empty when the wav path does not exist,
otherwise a `file://` URL of the absolute posix path. -/
def get_media_url (c : MediaContext) : String :=
  if c.wavExists then "file://" ++ c.wavAbsolutePosix else ""

/-- The parts of the assembled ANNOTATION_DOCUMENT that depend on the
input (the header's media URLs, the TIME_ORDER table and the two tiers);
the linguistic type and constraint blocks are constants of the source. -/
structure EAFDocument where
  mediaUrl : String
  relativeMediaUrl : String
  timeOrder : List TimeSlot
  operatorTier : List Ann
  callerTier : List Ann
  deriving DecidableEq

/-- `EAFGenerator.generate_eaf`: build the time order, then the Operator
and the Caller tier over the same slot map; a failed slot lookup anywhere
aborts the build (`none`). -/
def generate_eaf (c : MediaContext) (ops ca : List Segment) : Option EAFDocument :=
  match create_tier_anns "Operator" (create_time_order ops ca).2 ops 0,
        create_tier_anns "Caller" (create_time_order ops ca).2 ca 0 with
  | some ot, some ct =>
    some ⟨get_media_url c, get_relative_media_url c,
          (create_time_order ops ca).1, ot, ct⟩
  | _, _ => none

/-- Selects a tier's source segments: `true` for Operator, `false` for
Caller. -/
def tierSegs (ops ca : List Segment) : Bool → List Segment
  | true => ops
  | false => ca

/-- Selects a tier's emitted annotations: `true` for Operator, `false`
for Caller. -/
def tierAnnsOf (doc : EAFDocument) : Bool → List Ann
  | true => doc.operatorTier
  | false => doc.callerTier

/-- Selects a segment boundary: `true` for the start, `false` for the
end. -/
def boundOf (seg : Segment) : Bool → ℚ
  | true => seg.start
  | false => seg.end_

/-- Selects an annotation's slot reference: `true` for `TIME_SLOT_REF1`,
`false` for `TIME_SLOT_REF2`. -/
def refOf (a : Ann) : Bool → String
  | true => a.ref1
  | false => a.ref2

/-- Resolving a slot reference through the emitted TIME_ORDER table: the
`TIME_VALUE` of the first slot whose id matches. -/
def resolveRef (slots : List TimeSlot) (ref : String) : Option ℤ :=
  (slots.find? (fun s => s.id == ref)).map TimeSlot.value

/-- The truncated-millisecond boundary values of a segment list, in
emission order (start then end per segment). -/
def boundaryMillis : List Segment → List ℤ
  | [] => []
  | seg :: rest =>
    pyint (seg.start * 1000) :: pyint (seg.end_ * 1000) :: boundaryMillis rest

/-! ### Decimal numerals are injective (needed for id uniqueness) -/

/-- Numeric value of a decimal digit character. -/
def digitVal (c : Char) : ℕ := c.toNat - 48

/-- Numeric value of a most-significant-first decimal digit string. -/
def valOfDigits (ds : List Char) : ℕ :=
  ds.foldl (fun a c => 10 * a + digitVal c) 0

lemma digitVal_digitChar {d : ℕ} (h : d < 10) :
    digitVal (Nat.digitChar d) = d := by
  interval_cases d <;> decide

lemma valOfDigits_append_singleton (ds : List Char) (c : Char) :
    valOfDigits (ds ++ [c]) = 10 * valOfDigits ds + digitVal c := by
  simp [valOfDigits, List.foldl_append]

lemma toDigitsCore_append (fuel : ℕ) :
    ∀ (n : ℕ) (ds : List Char),
      Nat.toDigitsCore 10 fuel n ds = Nat.toDigitsCore 10 fuel n [] ++ ds := by
  induction fuel with
  | zero => intro n ds; simp [Nat.toDigitsCore]
  | succ f ih =>
    intro n ds
    simp only [Nat.toDigitsCore]
    by_cases h : n / 10 = 0
    · simp [h]
    · rw [if_neg h, if_neg h, ih (n / 10) ((n % 10).digitChar :: ds),
        ih (n / 10) [(n % 10).digitChar]]
      simp

lemma valOfDigits_toDigitsCore (fuel : ℕ) :
    ∀ n : ℕ, n < fuel → valOfDigits (Nat.toDigitsCore 10 fuel n []) = n := by
  induction fuel with
  | zero => intro n h; omega
  | succ f ih =>
    intro n h
    simp only [Nat.toDigitsCore]
    by_cases h0 : n / 10 = 0
    · rw [if_pos h0]
      have hlt : n < 10 := by omega
      have hval : valOfDigits [(n % 10).digitChar] = digitVal ((n % 10).digitChar) := by
        simp [valOfDigits]
      rw [hval, Nat.mod_eq_of_lt hlt, digitVal_digitChar hlt]
    · rw [if_neg h0, toDigitsCore_append f (n / 10) [(n % 10).digitChar],
        valOfDigits_append_singleton]
      have hdiv : n / 10 < f := by omega
      rw [ih (n / 10) hdiv, digitVal_digitChar (Nat.mod_lt n (by norm_num))]
      omega

lemma repr_inj {m n : ℕ} (h : Nat.repr m = Nat.repr n) : m = n := by
  have hd : Nat.toDigits 10 m = Nat.toDigits 10 n := by
    have h2 := congrArg String.data h
    simpa [Nat.repr, List.asString] using h2
  have hm := valOfDigits_toDigitsCore (m + 1) m (Nat.lt_succ_self m)
  have hn := valOfDigits_toDigitsCore (n + 1) n (Nat.lt_succ_self n)
  rw [← hm, ← hn]
  exact congrArg valOfDigits hd

lemma tsId_injective : Function.Injective tsId := by
  intro m n h
  have h2 := congrArg String.data h
  simp only [tsId, String.data_append] at h2
  exact repr_inj (String.ext (List.append_cancel_left h2))

/-! ### Structure of the emitted TIME_ORDER -/

lemma buildTimeOrder_length (l : List Segment) (i : ℕ) :
    (buildTimeOrder l i).length = 2 * l.length := by
  induction l generalizing i with
  | nil => simp [buildTimeOrder]
  | cons seg rest ih =>
    simp only [buildTimeOrder, List.length_cons, ih (i + 1)]
    omega

lemma buildTimeOrder_map_id (l : List Segment) :
    ∀ i : ℕ, (buildTimeOrder l i).map TimeSlot.id =
      (List.range' (2 * i + 1) (2 * l.length) 1).map tsId := by
  induction l with
  | nil => intro i; simp [buildTimeOrder]
  | cons seg rest ih =>
    intro i
    have h2 : 2 * (seg :: rest).length = 2 * rest.length + 1 + 1 := by
      simp only [List.length_cons]; omega
    rw [h2, List.range'_succ, List.range'_succ]
    have e1 : 2 * i + 1 + 1 = 2 * i + 2 := by omega
    rw [e1]
    have e2 : 2 * i + 2 + 1 = 2 * (i + 1) + 1 := by omega
    rw [e2]
    simp [buildTimeOrder, ih (i + 1)]

lemma buildTimeOrder_id_nodup (l : List Segment) (i : ℕ) :
    ((buildTimeOrder l i).map TimeSlot.id).Nodup := by
  rw [buildTimeOrder_map_id]
  exact (List.nodup_range' _ _).map tsId_injective

lemma buildTimeOrder_map_value (l : List Segment) (i : ℕ) :
    (buildTimeOrder l i).map TimeSlot.value = boundaryMillis l := by
  induction l generalizing i with
  | nil => simp [buildTimeOrder, boundaryMillis]
  | cons seg rest ih => simp [buildTimeOrder, boundaryMillis, ih (i + 1)]

/-! ### The slot map always points at a slot carrying the truncated
    milliseconds of its key, and covers every boundary -/

lemma buildSlotMap_spec (l : List Segment) :
    ∀ (i : ℕ) (m : ℚ → Option String) (slots : List TimeSlot),
      (∀ q r, m q = some r →
        ∃ s ∈ slots, s.id = r ∧ s.value = pyint (q * 1000)) →
      (∀ s, s ∈ buildTimeOrder l i → s ∈ slots) →
      ∀ q r, buildSlotMap l i m q = some r →
        ∃ s ∈ slots, s.id = r ∧ s.value = pyint (q * 1000) := by
  induction l with
  | nil => intro i m slots hm hsub q r h; exact hm q r h
  | cons seg rest ih =>
    intro i m slots hm hsub q r h
    refine ih (i + 1) _ slots ?_ ?_ q r h
    · intro q2 r2 h2
      by_cases he : q2 = seg.end_
      · rw [he] at h2
        simp only [if_pos rfl] at h2
        refine ⟨⟨tsId (2 * i + 2), pyint (seg.end_ * 1000)⟩,
          hsub _ (by simp [buildTimeOrder]), ?_, by rw [he]⟩
        simpa using h2
      · rw [if_neg he] at h2
        by_cases hs : q2 = seg.start
        · rw [hs] at h2
          simp only [if_pos rfl] at h2
          refine ⟨⟨tsId (2 * i + 1), pyint (seg.start * 1000)⟩,
            hsub _ (by simp [buildTimeOrder]), ?_, by rw [hs]⟩
          simpa using h2
        · rw [if_neg hs] at h2
          exact hm q2 r2 h2
    · intro s hs
      exact hsub s (by simp [buildTimeOrder]; right; right; exact hs)

lemma buildSlotMap_isSome (l : List Segment) :
    ∀ (i : ℕ) (m : ℚ → Option String) (q : ℚ),
      ((∃ seg ∈ l, q = seg.start ∨ q = seg.end_) ∨ (m q).isSome = true) →
      (buildSlotMap l i m q).isSome = true := by
  induction l with
  | nil =>
    intro i m q h
    rcases h with ⟨seg, hmem, -⟩ | hm
    · exact absurd hmem (List.not_mem_nil _)
    · exact hm
  | cons seg rest ih =>
    intro i m q h
    apply ih (i + 1)
    rcases h with ⟨s2, hs2, hb⟩ | hm
    · rcases List.mem_cons.mp hs2 with heq | hmem
      · right
        rw [heq] at hb
        by_cases he : q = seg.end_
        · rw [if_pos he]; rfl
        · rcases hb with hb | hb
          · rw [if_neg he, if_pos hb]; rfl
          · exact absurd hb he
      · left; exact ⟨s2, hmem, hb⟩
    · right
      by_cases he : q = seg.end_
      · rw [if_pos he]; rfl
      · by_cases hs : q = seg.start
        · rw [if_neg he, if_pos hs]; rfl
        · rw [if_neg he, if_neg hs]; exact hm

/-! ### Tier construction -/

lemma create_tier_anns_isSome (tid : String) (m : ℚ → Option String) :
    ∀ (segs : List Segment) (i : ℕ),
      (∀ seg ∈ segs, (m seg.start).isSome = true ∧ (m seg.end_).isSome = true) →
      (create_tier_anns tid m segs i).isSome = true := by
  intro segs
  induction segs with
  | nil => intro i h; rfl
  | cons seg rest ih =>
    intro i h
    obtain ⟨h1, h2⟩ := h seg (List.mem_cons_self _ _)
    obtain ⟨r1, hr1⟩ := Option.isSome_iff_exists.mp h1
    obtain ⟨r2, hr2⟩ := Option.isSome_iff_exists.mp h2
    obtain ⟨anns, hanns⟩ := Option.isSome_iff_exists.mp
      (ih (i + 1) (fun s hs => h s (List.mem_cons_of_mem _ hs)))
    simp [create_tier_anns, hr1, hr2, hanns]

lemma create_tier_anns_spec (tid : String) (m : ℚ → Option String) :
    ∀ (segs : List Segment) (i : ℕ) (anns : List Ann),
      create_tier_anns tid m segs i = some anns →
      anns.length = segs.length ∧
      ∀ (k : ℕ) (seg : Segment) (a : Ann),
        segs[k]? = some seg → anns[k]? = some a →
        m seg.start = some a.ref1 ∧ m seg.end_ = some a.ref2 := by
  intro segs
  induction segs with
  | nil =>
    intro i anns h
    simp only [create_tier_anns, Option.some.injEq] at h
    subst h
    exact ⟨rfl, by intro k seg a hseg _; simp at hseg⟩
  | cons seg rest ih =>
    intro i anns h
    simp only [create_tier_anns] at h
    rcases hr1 : m seg.start with _ | r1 <;>
      rcases hr2 : m seg.end_ with _ | r2 <;>
        rcases hrec : create_tier_anns tid m rest (i + 1) with _ | anns2 <;>
          rw [hr1, hr2, hrec] at h <;> simp at h
    subst h
    obtain ⟨ihlen, ihk⟩ := ih (i + 1) anns2 hrec
    refine ⟨by simp [ihlen], ?_⟩
    intro k sg a hsg ha
    cases k with
    | zero =>
      simp only [List.getElem?_cons_zero, Option.some.injEq] at hsg ha
      subst hsg
      subst ha
      exact ⟨hr1, hr2⟩
    | succ k2 =>
      simp only [List.getElem?_cons_succ] at hsg ha
      exact ihk k2 sg a hsg ha

/-! ### Resolution through the table -/

lemma resolveRef_eq {slots : List TimeSlot} {ref : String} {v : ℤ}
    (hnd : (slots.map TimeSlot.id).Nodup)
    (h : ∃ s ∈ slots, s.id = ref ∧ s.value = v) :
    resolveRef slots ref = some v := by
  obtain ⟨s, hmem, hid, hv⟩ := h
  have hsome : (slots.find? (fun t => t.id == ref)).isSome :=
    List.find?_isSome.mpr ⟨s, hmem, by simp [hid]⟩
  obtain ⟨t, ht⟩ := Option.isSome_iff_exists.mp hsome
  have htmem := List.mem_of_find?_eq_some ht
  have hteq : t.id = ref := by simpa using List.find?_some ht
  have hts : t = s :=
    List.inj_on_of_nodup_map hnd htmem hmem (by rw [hteq, hid])
  simp [resolveRef, ht, hts, hv]

lemma slot_lookup_value (ops ca : List Segment) {q : ℚ} {r : String}
    (h : (create_time_order ops ca).2 q = some r) :
    resolveRef (create_time_order ops ca).1 r = some (pyint (q * 1000)) := by
  refine resolveRef_eq (buildTimeOrder_id_nodup _ 0)
    (buildSlotMap_spec (sortedSegments ops ca) 0 (fun _ => none)
      (buildTimeOrder (sortedSegments ops ca) 0) ?_ (fun s hs => hs) q r h)
  intro q2 r2 h2
  simp at h2

/-! ### The whole document build -/

lemma create_time_order_covers (ops ca : List Segment) :
    ∀ seg ∈ ops ++ ca,
      ((create_time_order ops ca).2 seg.start).isSome = true ∧
      ((create_time_order ops ca).2 seg.end_).isSome = true := by
  have hmem : ∀ seg ∈ ops ++ ca, seg ∈ sortedSegments ops ca := by
    intro seg hseg
    exact ((List.perm_insertionSort (fun a b => a.start ≤ b.start)
      (ops ++ ca)).mem_iff).mpr hseg
  intro seg hseg
  constructor
  · exact buildSlotMap_isSome (sortedSegments ops ca) 0 (fun _ => none)
      seg.start (Or.inl ⟨seg, hmem seg hseg, Or.inl rfl⟩)
  · exact buildSlotMap_isSome (sortedSegments ops ca) 0 (fun _ => none)
      seg.end_ (Or.inl ⟨seg, hmem seg hseg, Or.inr rfl⟩)

lemma generate_eaf_some (c : MediaContext) (ops ca : List Segment) :
    ∃ ot ct,
      create_tier_anns "Operator" (create_time_order ops ca).2 ops 0 = some ot ∧
      create_tier_anns "Caller" (create_time_order ops ca).2 ca 0 = some ct ∧
      generate_eaf c ops ca =
        some ⟨get_media_url c, get_relative_media_url c,
              (create_time_order ops ca).1, ot, ct⟩ := by
  have hcov := create_time_order_covers ops ca
  have hop := create_tier_anns_isSome "Operator" ((create_time_order ops ca).2) ops 0
    (fun s hs => hcov s (List.mem_append_left _ hs))
  have hca := create_tier_anns_isSome "Caller" ((create_time_order ops ca).2) ca 0
    (fun s hs => hcov s (List.mem_append_right _ hs))
  obtain ⟨ot, hot⟩ := Option.isSome_iff_exists.mp hop
  obtain ⟨ct, hct⟩ := Option.isSome_iff_exists.mp hca
  exact ⟨ot, ct, hot, hct, by simp [generate_eaf, hot, hct]⟩

lemma ann_ref_lookup (c : MediaContext) (ops ca : List Segment)
    (doc : EAFDocument) (hdoc : generate_eaf c ops ca = some doc)
    (t b : Bool) (k : ℕ) (seg : Segment) (a : Ann)
    (hseg : (tierSegs ops ca t)[k]? = some seg)
    (ha : (tierAnnsOf doc t)[k]? = some a) :
    (create_time_order ops ca).2 (boundOf seg b) = some (refOf a b) := by
  obtain ⟨ot, ct, hot, hct, hgen⟩ := generate_eaf_some c ops ca
  rw [hdoc] at hgen
  obtain rfl := Option.some.inj hgen
  cases t with
  | true =>
    obtain ⟨hs, he⟩ :=
      (create_tier_anns_spec "Operator" ((create_time_order ops ca).2) ops 0 ot hot).2
        k seg a hseg ha
    cases b
    · exact he
    · exact hs
  | false =>
    obtain ⟨hs, he⟩ :=
      (create_tier_anns_spec "Caller" ((create_time_order ops ca).2) ca 0 ct hct).2
        k seg a hseg ha
    cases b
    · exact he
    · exact hs

/-! ## Claims about the generator -/

/-- Concrete media context: document `test.json` in the working
directory, no media directory, companion wav absent. -/
def mcAbsent : MediaContext := ⟨[], "test", none, false, ""⟩

/-- Concrete segment: speaker A over seconds 0 to 1. -/
def segA : Segment := ⟨"A", 0, 1⟩

/-- Concrete segment: speaker B over seconds 1 to 2 (its start equals
the end of `segA`). -/
def segB : Segment := ⟨"B", 1, 2⟩

/-- Concrete segment: speaker A over seconds 0 to 10 (overlapping
`segB`). -/
def segLong : Segment := ⟨"A", 0, 10⟩

/-- Concrete segment with a negative fractional start time. -/
def segNeg : Segment := ⟨"A", -(3 : ℚ) / 2000, 1⟩

/-- The document `generate_eaf mcAbsent [segA] [segB]` produces. -/
def docAB : EAFDocument :=
  ⟨"", "./test.wav",
   [⟨"ts1", 0⟩, ⟨"ts2", 1000⟩, ⟨"ts3", 1000⟩, ⟨"ts4", 2000⟩],
   [⟨"o1", "ts1", "ts3"⟩], [⟨"c1", "ts3", "ts4"⟩]⟩

/-- Counterexample to claim C1 as stated: on the input with segments
(A, 0, 1) and (B, 1, 2) the shared boundary value 1 s produces two
TIME_SLOT entries (`ts2` and `ts3`) with equal `TIME_VALUE` 1000 but
different ids — the generator does not deduplicate. -/
theorem C1_counterexample :
    ¬ (∀ s ∈ (create_time_order [segA] [segB]).1,
        ∀ t ∈ (create_time_order [segA] [segB]).1,
          s.value = t.value → s.id = t.id) := by
  with_unfolding_all decide

/-- Amended claim C1: the generated TIME_ORDER reuses no id (all
`TIME_SLOT_ID`s are distinct), and the slot count always equals
`2 × totalSegments` — so the claimed bound holds, but equality holds
regardless of whether boundary values are distinct, and boundaries with
equal values yield distinct slots of equal `TIME_VALUE`. -/
theorem C1_amended_ids_fresh_and_count (ops ca : List Segment) :
    ((create_time_order ops ca).1.map TimeSlot.id).Nodup ∧
    (create_time_order ops ca).1.length = 2 * (ops.length + ca.length) := by
  constructor
  · exact buildTimeOrder_id_nodup _ 0
  · show (buildTimeOrder (sortedSegments ops ca) 0).length = _
    rw [buildTimeOrder_length]
    simp [sortedSegments, List.length_insertionSort, List.length_append]

/-- Counterexample to claim C2 as stated: with the overlapping segments
(A, 0, 10) and (B, 1, 2) the TIME_VALUE sequence is 0, 10000, 1000, 2000,
which is not ascending (slots are emitted start/end interleaved per
segment, not globally sorted, and not deduplicated). -/
theorem C2_counterexample :
    ¬ List.Sorted (· ≤ ·)
        ((create_time_order [segLong] [segB]).1.map TimeSlot.value) := by
  with_unfolding_all decide

instance : IsTotal Segment (fun a b => a.start ≤ b.start) :=
  ⟨fun a b => le_total a.start b.start⟩

instance : IsTrans Segment (fun a b => a.start ≤ b.start) :=
  ⟨fun _ _ _ hab hbc => le_trans hab hbc⟩

/-- Amended claim C2: the TIME_SLOT elements appear two per segment
(start slot then end slot, truncated milliseconds, no deduplication) in
the order of the segments sorted ascending by start time, and the
`TIME_SLOT_ID`s are `ts<n>` with `n` assigned sequentially 1-based in
that document order; the sorted segment list is a permutation of the
concatenated input. -/
theorem C2_amended_slot_layout (ops ca : List Segment) :
    (create_time_order ops ca).1.map TimeSlot.id =
      (List.range' 1 (2 * (ops.length + ca.length)) 1).map tsId ∧
    (create_time_order ops ca).1.map TimeSlot.value =
      boundaryMillis (sortedSegments ops ca) ∧
    (sortedSegments ops ca).Pairwise (fun a b => a.start ≤ b.start) ∧
    (sortedSegments ops ca).Perm (ops ++ ca) := by
  refine ⟨?_, buildTimeOrder_map_value _ 0, ?_, List.perm_insertionSort _ _⟩
  · have h := buildTimeOrder_map_id (sortedSegments ops ca) 0
    rw [show (2 : ℕ) * 0 + 1 = 1 from rfl] at h
    rw [show (sortedSegments ops ca).length = ops.length + ca.length from by
      simp [sortedSegments, List.length_insertionSort, List.length_append]] at h
    exact h
  · exact List.sorted_insertionSort _ (ops ++ ca)

set_option maxRecDepth 4000 in
/-- Counterexample to claim C3 as stated: for the valid segment
(A, -3/2000 s, 1 s) the emitted annotation's first reference resolves to
TIME_VALUE -1 (Python `int()` truncates toward zero), while the claimed
`floor(start * 1000)` is -2. -/
theorem C3_counterexample :
    (generate_eaf mcAbsent [segNeg] []).map
        (fun doc => doc.operatorTier.map (fun a => resolveRef doc.timeOrder a.ref1)) =
      some [some (-1)] ∧
    ⌊segNeg.start * 1000⌋ = -2 := by
  with_unfolding_all decide

/-- Amended claim C3: for every segment in either tier, resolving the
emitted annotation's `TIME_SLOT_REF1`/`TIME_SLOT_REF2` through the
time-slot table yields the segment's start and end times in milliseconds
truncated toward zero (`int(x * 1000)`), which coincides with
`floor(x * 1000)` for the nonnegative timestamps of real recordings. -/
theorem C3_amended_round_trip (c : MediaContext) (ops ca : List Segment)
    (doc : EAFDocument) (hdoc : generate_eaf c ops ca = some doc)
    (b : Bool) (k : ℕ) (seg : Segment) (a : Ann)
    (hseg : (tierSegs ops ca b)[k]? = some seg)
    (ha : (tierAnnsOf doc b)[k]? = some a) :
    resolveRef doc.timeOrder a.ref1 = some (pyint (seg.start * 1000)) ∧
    resolveRef doc.timeOrder a.ref2 = some (pyint (seg.end_ * 1000)) := by
  have hstart := ann_ref_lookup c ops ca doc hdoc b true k seg a hseg ha
  have hend := ann_ref_lookup c ops ca doc hdoc b false k seg a hseg ha
  obtain ⟨ot, ct, hot, hct, hgen⟩ := generate_eaf_some c ops ca
  rw [hdoc] at hgen
  obtain rfl := Option.some.inj hgen
  exact ⟨slot_lookup_value ops ca hstart, slot_lookup_value ops ca hend⟩

/-- Witness for amended claim C3 at the concrete input
`[segA]` / `[segB]`: the operator annotation's references resolve to 0 ms
and 1000 ms. -/
theorem C3_round_trip_witness :
    resolveRef docAB.timeOrder (Ann.mk "o1" "ts1" "ts3").ref1 =
      some (pyint (segA.start * 1000)) ∧
    resolveRef docAB.timeOrder (Ann.mk "o1" "ts1" "ts3").ref2 =
      some (pyint (segA.end_ * 1000)) :=
  C3_amended_round_trip mcAbsent [segA] [segB] docAB
    (by with_unfolding_all rfl) true 0 segA (Ann.mk "o1" "ts1" "ts3")
    rfl (by with_unfolding_all rfl)

/-- Counterexample to claim C5 as stated: with the companion wav absent,
`MEDIA_URL` is the empty string but `RELATIVE_MEDIA_URL` is still the
computed relative path `./test.wav` — the relative URL never consults the
filesystem, so the two fields are not both empty. -/
theorem C5_counterexample :
    (generate_eaf mcAbsent [segA] []).map EAFDocument.mediaUrl = some "" ∧
    (generate_eaf mcAbsent [segA] []).map EAFDocument.relativeMediaUrl ≠ some "" := by
  with_unfolding_all decide

lemma get_media_url_empty {c : MediaContext} (h : c.wavExists = false) :
    get_media_url c = "" := by
  simp [get_media_url, h]

lemma get_relative_media_url_ne_empty (c : MediaContext) :
    get_relative_media_url c ≠ "" := by
  unfold get_relative_media_url
  by_cases h : (relPathString c).startsWith "." = true
  · rw [if_pos h]
    intro he
    rw [he] at h
    exact absurd h (by decide)
  · rw [if_neg h]
    intro he
    have hlen := congrArg String.length he
    simp only [String.length_append] at hlen
    have h2 : ("./" : String).length = 2 := rfl
    have h0 : ("" : String).length = 0 := rfl
    omega

/-- Amended claim C5: if the companion wav file does not exist at build
time, `MEDIA_URL` is the empty string, but `RELATIVE_MEDIA_URL` is still
the computed (never empty) relative path, which is produced without any
filesystem check; the document still builds successfully. -/
theorem C5_amended_media_urls (c : MediaContext) (ops ca : List Segment)
    (h : c.wavExists = false) :
    ∃ doc, generate_eaf c ops ca = some doc ∧
      doc.mediaUrl = "" ∧
      doc.relativeMediaUrl = get_relative_media_url c ∧
      doc.relativeMediaUrl ≠ "" := by
  obtain ⟨ot, ct, hot, hct, hgen⟩ := generate_eaf_some c ops ca
  exact ⟨_, hgen, get_media_url_empty h, rfl, get_relative_media_url_ne_empty c⟩

/-- Witness for amended claim C5 at the concrete context `mcAbsent`. -/
theorem C5_media_witness :
    ∃ doc, generate_eaf mcAbsent [segA] [] = some doc ∧
      doc.mediaUrl = "" ∧
      doc.relativeMediaUrl = get_relative_media_url mcAbsent ∧
      doc.relativeMediaUrl ≠ "" :=
  C5_amended_media_urls mcAbsent [segA] [] rfl

/-- Claim C6: any two segment boundaries (from either partition, start or
end) carrying the same raw seconds value are emitted with the identical
`TIME_SLOT` reference — annotation references are looked up in the
value-keyed slot dict, so equal raw values resolve to the same id; id
assignment is deterministic because the whole build is a pure function of
the input. -/
theorem C6_equal_boundaries_same_ref (c : MediaContext) (ops ca : List Segment)
    (doc : EAFDocument) (hdoc : generate_eaf c ops ca = some doc)
    (t1 t2 b1 b2 : Bool) (k1 k2 : ℕ) (seg1 seg2 : Segment) (a1 a2 : Ann)
    (hseg1 : (tierSegs ops ca t1)[k1]? = some seg1)
    (ha1 : (tierAnnsOf doc t1)[k1]? = some a1)
    (hseg2 : (tierSegs ops ca t2)[k2]? = some seg2)
    (ha2 : (tierAnnsOf doc t2)[k2]? = some a2)
    (heq : boundOf seg1 b1 = boundOf seg2 b2) :
    refOf a1 b1 = refOf a2 b2 := by
  have r1 := ann_ref_lookup c ops ca doc hdoc t1 b1 k1 seg1 a1 hseg1 ha1
  have r2 := ann_ref_lookup c ops ca doc hdoc t2 b2 k2 seg2 a2 hseg2 ha2
  rw [heq] at r1
  exact Option.some.inj (r1.symm.trans r2)

/-- Witness for claim C6: in `docAB`, segment A's end and segment B's
start share the raw value 1 s, and both annotations reference the very
same slot id. -/
theorem C6_witness :
    refOf (Ann.mk "o1" "ts1" "ts3") false = refOf (Ann.mk "c1" "ts3" "ts4") true :=
  C6_equal_boundaries_same_ref mcAbsent [segA] [segB] docAB
    (by with_unfolding_all rfl) true false false true 0 0 segA segB
    (Ann.mk "o1" "ts1" "ts3") (Ann.mk "c1" "ts3" "ts4")
    rfl (by with_unfolding_all rfl) rfl (by with_unfolding_all rfl)
    (by with_unfolding_all rfl)

/-- Claim C9: the slot map built by `_create_time_order` contains an
entry for the raw start and end value of every segment of both
partitions, so every lookup performed while building the tiers succeeds
and the whole document build never hits the missing-key branch. -/
theorem C9_slot_lookup_total (c : MediaContext) (ops ca : List Segment) :
    ((ops ++ ca).all fun seg =>
        ((create_time_order ops ca).2 seg.start).isSome &&
        ((create_time_order ops ca).2 seg.end_).isSome) = true ∧
    (generate_eaf c ops ca).isSome = true := by
  obtain ⟨ot, ct, hot, hct, hgen⟩ := generate_eaf_some c ops ca
  constructor
  · rw [List.all_eq_true]
    intro seg hseg
    obtain ⟨h1, h2⟩ := create_time_order_covers ops ca seg hseg
    simp [h1, h2]
  · simp [hgen]

end D2EAF
